import Mathlib

/-!
Verification development for the Dotventurer procedural SFX engine
(`src/audio/`): the event catalog (`catalog.py`), the recipe loader
(`recipes.py`), the renderer normalization stage (`renderer.py`) and the
runtime mixer (`sfx.py`).

Modelling conventions:
* Python floats are modelled as exact rationals (`ℚ`); the real-valued DSP
  formulas (equal-power panning, dB conversion, peak normalization) are
  modelled over `ℝ`.
* Python dicts are modelled as association lists (`List (String × α)`) with
  first-match lookup; Python dicts have unique keys, which first-match
  lookup preserves.
* The mixer is modelled in its audio-disabled configuration
  (`SFX(enable_audio=False)`): every playback channel is `None`, so all
  channel interaction (`set_volume`, `stop`, `get_busy`) is a no-op, exactly
  as in the source.
* `float("inf")` (the virtual time of loop voices) is modelled as `none` in
  an `Option ℚ`.
* Python object identity (`is`, in-place mutation of a `Voice` shared by a
  bus list and the loop index) is modelled as structural equality.
-/

namespace DotSFX

/-! ### Association-list model of Python dicts -/

/-- First-match lookup, `d.get(k)` / `d[k]`. -/
def alookup (m : List (String × α)) (k : String) : Option α :=
  (m.find? (fun p => p.1 == k)).map (fun p => p.2)

/-- `d.get(k, dflt)`. -/
def alookupD (m : List (String × α)) (k : String) (dflt : α) : α :=
  (alookup m k).getD dflt

/-- `d[k] = v`: replace the (unique) entry in place if the key is present,
else append.  Python dicts keep insertion order, which this preserves. -/
def aset : List (String × α) → String → α → List (String × α)
  | [], k, v => [(k, v)]
  | p :: m, k, v => if p.1 = k then (k, v) :: m else p :: aset m k v

/-- `del d[k]` (also used for `d.pop(k, None)`). -/
def aerase (m : List (String × α)) (k : String) : List (String × α) :=
  m.filter (fun p => p.1 != k)

theorem alookup_nil (k : String) : alookup ([] : List (String × α)) k = none := rfl

theorem alookup_cons (p : String × α) (m : List (String × α)) (k : String) :
    alookup (p :: m) k = if p.1 = k then some p.2 else alookup m k := by
  by_cases h : p.1 = k
  · have hb : (p.1 == k) = true := beq_iff_eq.mpr h
    simp [alookup, List.find?, hb, h]
  · have hb : (p.1 == k) = false := beq_eq_false_iff_ne.mpr h
    simp [alookup, List.find?, hb, h]

theorem alookup_aset (m : List (String × α)) (k k' : String) (v : α) :
    alookup (aset m k v) k' = if k' = k then some v else alookup m k' := by
  induction m with
  | nil =>
    show alookup [(k, v)] k' = _
    rw [alookup_cons]
    by_cases h : k' = k
    · simp [h]
    · have h2 : ¬(k = k') := fun hc => h hc.symm
      simp [alookup_nil, h, h2]
  | cons p m ih =>
    show alookup (if p.1 = k then (k, v) :: m else p :: aset m k v) k' = _
    by_cases hpk : p.1 = k
    · rw [if_pos hpk, alookup_cons, alookup_cons]
      by_cases h : k' = k
      · simp [h]
      · have h2 : ¬(k = k') := fun hc => h hc.symm
        have hpk' : ¬(p.1 = k') := fun hc => h (hpk.symm.trans hc).symm
        simp [h, h2, hpk']
    · rw [if_neg hpk, alookup_cons, ih, alookup_cons]
      by_cases hpk' : p.1 = k'
      · have h : ¬(k' = k) := fun hc => hpk (hpk'.trans hc)
        simp [hpk', h]
      · simp [hpk']

theorem alookupD_aset (m : List (String × α)) (k k' : String) (v dflt : α) :
    alookupD (aset m k v) k' dflt = if k' = k then v else alookupD m k' dflt := by
  unfold alookupD
  rw [alookup_aset]
  by_cases h : k' = k <;> simp [h]

/-! ### Catalog (`src/audio/catalog.py`) -/

/-- `SFXCatalog.next_recipe_id` acting on one event's recipe-id list and
round-robin cursor (`self._variant_indices[event]`, initialised to 0 at
load time).  Returns the chosen id and the new cursor. -/
def next_recipe_id (recipe_ids : List String) (cursor : Nat) : String × Nat :=
  if recipe_ids.length = 1 then
    (recipe_ids.getD 0 "", cursor)
  else
    (recipe_ids.getD cursor "", (cursor + 1) % recipe_ids.length)

/-- Cursor after `k` successive `next_recipe_id` calls, starting from the
load-time cursor 0. -/
def rrCursor (recipe_ids : List String) : Nat → Nat
  | 0 => 0
  | k + 1 => (next_recipe_id recipe_ids (rrCursor recipe_ids k)).2

/-- The id returned by the `(k+1)`-th `next_recipe_id` call. -/
def rrOut (recipe_ids : List String) (k : Nat) : String :=
  (next_recipe_id recipe_ids (rrCursor recipe_ids k)).1

theorem rrCursor_eq_mod (ids : List String) (k : Nat) :
    rrCursor ids k = k % ids.length := by
  induction k with
  | zero => simp [rrCursor, Nat.zero_mod]
  | succ k ih =>
    by_cases h1 : ids.length = 1
    · simp [rrCursor, next_recipe_id, h1, ih, Nat.mod_one]
    · simp only [rrCursor, next_recipe_id, h1, if_false, ih]
      rw [Nat.mod_add_mod]

theorem alookup_aerase (m : List (String × α)) (k k' : String) :
    alookup (aerase m k) k' = if k' = k then none else alookup m k' := by
  induction m with
  | nil => by_cases h : k' = k <;> simp [aerase, alookup_nil, h]
  | cons p m ih =>
    by_cases hpk : p.1 = k
    · have hb : (p.1 != k) = false := by simp [hpk]
      by_cases h : k' = k
      · simpa [aerase, hb, h] using ih
      · have hpk' : ¬(p.1 = k') := fun hc => h (hc.symm.trans hpk)
        simp only [aerase, List.filter] at *
        simpa [hb, alookup_cons, hpk'] using ih
    · have hb : (p.1 != k) = true := by simp [hpk]
      simp only [aerase, List.filter] at *
      rw [hb]
      by_cases hpk' : p.1 = k'
      · have h : ¬(k' = k) := fun hc => hpk (hpk'.trans hc)
        simp [alookup_cons, hpk', h]
      · simpa [alookup_cons, hpk'] using ih

/-- C3, first part: each call returns the id at the cursor and leaves the
cursor at `(cursor + 1) % len`; the single-id branch returns the id without
writing the cursor (which stays 0, extensionally equal to `(0+1) % 1`). -/
theorem next_recipe_id_step (ids : List String) (cursor : Nat)
    (h : cursor < ids.length) :
    (next_recipe_id ids cursor).1 = ids.getD cursor "" ∧
    (next_recipe_id ids cursor).2 = (cursor + 1) % ids.length := by
  by_cases h1 : ids.length = 1
  · have hc : cursor = 0 := by omega
    subst hc
    simp [next_recipe_id, h1]
  · simp [next_recipe_id, h1]

/-- C3: `next_recipe_id` returns `recipe_ids[cursor]` and advances the
cursor to `(cursor + 1) % len(recipe_ids)` (the single-id branch skips the
write, which is extensionally the same since `(0 + 1) % 1 = 0`); hence calls
`i` and `i + N` yield the same id, and a single-id event always returns that
id with the cursor untouched. -/
theorem next_recipe_id_round_robin :
    (∀ (ids : List String) (cursor : Nat), cursor < ids.length →
        (next_recipe_id ids cursor).1 = ids.getD cursor "" ∧
        (next_recipe_id ids cursor).2 = (cursor + 1) % ids.length) ∧
    (∀ (ids : List String) (i : Nat), rrOut ids (i + ids.length) = rrOut ids i) ∧
    (∀ (ids : List String) (cursor : Nat), ids.length = 1 →
        next_recipe_id ids cursor = (ids.getD 0 "", cursor)) := by
  refine ⟨fun ids cursor h => next_recipe_id_step ids cursor h,
          fun ids i => ?_,
          fun ids cursor h1 => by simp [next_recipe_id, h1]⟩
  unfold rrOut
  rw [rrCursor_eq_mod, rrCursor_eq_mod, Nat.add_mod_right]

theorem next_recipe_id_round_robin_witness :
    (next_recipe_id ["a", "b"] 1).1 = ["a", "b"].getD 1 "" ∧
    (next_recipe_id ["a", "b"] 1).2 = (1 + 1) % (["a", "b"] : List String).length ∧
    rrOut ["a", "b"] 3 = rrOut ["a", "b"] 1 ∧
    next_recipe_id ["x"] 0 = (["x"].getD 0 "", 0) :=
  ⟨(next_recipe_id_round_robin.1 ["a", "b"] 1 (by decide)).1,
   (next_recipe_id_round_robin.1 ["a", "b"] 1 (by decide)).2,
   next_recipe_id_round_robin.2.1 ["a", "b"] 1,
   next_recipe_id_round_robin.2.2 ["x"] 0 (by decide)⟩

/-! ### Recipe loader (`src/audio/recipes.py`)

JSON values as parsed by `json.load`; `null` maps to Python `None`.
Error strings follow the source messages with the single-quote characters
around identifiers omitted. -/

inductive JValue where
  | null
  | bool (b : Bool)
  | num (q : ℚ)
  | str (s : String)
  | arr (items : List JValue)
  | obj (fields : List (String × JValue))
deriving BEq

structure EnvelopeSpec where
  attack_ms : ℚ
  decay_ms : ℚ
  sustain : ℚ
  release_ms : ℚ
deriving DecidableEq

structure RandomizeSpec where
  pitch_semitones : ℚ
  amp_pct : ℚ
  start_ms : ℚ
deriving DecidableEq

structure LayerSpec where
  layer_type : String
  waveform : String
  freq_hz : Option ℚ
  lp_hz : Option ℚ
  amp : ℚ
  env : EnvelopeSpec
  pitch_glide : Option (ℚ × ℚ)
  randomize : RandomizeSpec
deriving DecidableEq

structure RecipeSpec where
  recipe_id : String
  duration_ms : ℚ
  loop : Bool
  loop_length_ms : Option ℚ
  headroom_db : ℚ
  layers : List LayerSpec
  has_randomization : Bool
deriving DecidableEq

/-- Python `float()` applied to a JSON value (numbers and booleans convert;
anything else raises, modelled as an error). -/
def jFloat : JValue → Except String ℚ
  | .num q => .ok q
  | .bool b => .ok (if b then 1 else 0)
  | _ => .error "TypeError: float()"

/-- Python `bool()` truthiness. -/
def jTruthy : JValue → Bool
  | .null => false
  | .bool b => b
  | .num q => q != 0
  | .str s => s != ""
  | .arr items => !items.isEmpty
  | .obj fields => !fields.isEmpty

/-- Python `str()` for the values the loader coerces with `str()` (the data
of interest always stores strings there). -/
def jStr : JValue → String
  | .str s => s
  | .bool b => if b then "True" else "False"
  | .null => "None"
  | _ => "<nonstring>"

/-- `payload.get(k)` (key absent gives `None`, i.e. `none`). -/
def jGet (payload : List (String × JValue)) (k : String) : Option JValue :=
  alookup payload k

/-- `payload.get(k)` collapsed through the Python `is None` test: a stored
JSON `null` is `None` just like an absent key. -/
def jGetOpt (payload : List (String × JValue)) (k : String) : Option JValue :=
  match jGet payload k with
  | some .null => none
  | x => x

/-- `float(payload.get(k, dflt))`. -/
def jFloatD (payload : List (String × JValue)) (k : String) (dflt : ℚ) :
    Except String ℚ :=
  match jGet payload k with
  | none => .ok dflt
  | some v => jFloat v

/-- `payload.get(k) or {}`: falsy values collapse to the empty dict; a truthy
non-dict would crash in the subsequent `.get`, modelled as an error. -/
def jObjOrEmpty : Option JValue → Except String (List (String × JValue))
  | none => .ok []
  | some .null => .ok []
  | some (.obj fs) => .ok fs
  | some (.bool false) => .ok []
  | some (.bool true) => .error "TypeError: not a mapping"
  | some (.num q) => if q = 0 then .ok [] else .error "TypeError: not a mapping"
  | some (.str s) => if s = "" then .ok [] else .error "TypeError: not a mapping"
  | some (.arr items) =>
      if items.isEmpty then .ok [] else .error "TypeError: not a mapping"

/-- `SFXRecipes._normalize_randomize`. -/
def normalize_randomize (rid : String) (idx : Nat)
    (payload : List (String × JValue)) : Except String RandomizeSpec := do
  let pitch ← jFloatD payload "pitch_semitones" 0
  let amp ← jFloatD payload "amp_pct" 0
  let start ← jFloatD payload "start_ms" 0
  if pitch < 0 ∨ amp < 0 ∨ start < 0 then
    .error s!"Recipe {rid} layer {idx} randomize values must be non-negative"
  else
    .ok ⟨pitch, amp, start⟩

/-- `SFXRecipes._normalize_env`.  The source default for `sustain` is the
float literal `0.6`, modelled as the rational 3/5. -/
def normalize_env (rid : String) (idx : Nat)
    (payload : List (String × JValue)) : Except String EnvelopeSpec := do
  let attack ← jFloatD payload "attack_ms" 8
  let decay ← jFloatD payload "decay_ms" 40
  let sustain ← jFloatD payload "sustain" (3/5)
  let release ← jFloatD payload "release_ms" 60
  if attack < 0 ∨ decay < 0 ∨ release < 0 then
    .error s!"Recipe {rid} layer {idx} envelope times must be >= 0"
  else if sustain < 0 ∨ sustain > 1 then
    .error s!"Recipe {rid} layer {idx} sustain must be 0..1"
  else
    .ok ⟨attack, decay, sustain, release⟩

/-- `SFXRecipes._normalize_layer`. -/
def normalize_layer (rid : String) (idx : Nat) (payload : JValue) :
    Except String LayerSpec := do
  match payload with
  | .obj p => do
    let layer_type := jStr ((jGet p "type").getD (.str "osc"))
    if layer_type ≠ "osc" ∧ layer_type ≠ "noise" then
      .error s!"Recipe {rid} layer {idx} has invalid type {layer_type}"
    else
    let waveform0 := jStr ((jGet p "wave").getD (.str "sine"))
    if layer_type = "osc" ∧ waveform0 ≠ "sine" ∧ waveform0 ≠ "triangle" ∧
        waveform0 ≠ "square" then
      .error s!"Recipe {rid} layer {idx} has invalid wave {waveform0}"
    else
    let waveform := if layer_type = "noise" then "noise" else waveform0
    if layer_type = "osc" ∧ (jGetOpt p "freq_hz").isNone then
      .error s!"Recipe {rid} layer {idx} requires freq_hz"
    else
    let amp ← jFloatD p "amp" 1
    if amp ≤ 0 then
      .error s!"Recipe {rid} layer {idx} amp must be positive"
    else
    let envFields ← jObjOrEmpty (jGet p "env")
    let env ← normalize_env rid idx envFields
    let pitch_glide ← match jGetOpt p "pitch_glide" with
      | none => pure (none : Option (ℚ × ℚ))
      | some (.arr [a, b]) => do
          let qa ← jFloat a
          let qb ← jFloat b
          pure (some (qa, qb))
      | some _ =>
          .error s!"Recipe {rid} layer {idx} pitch_glide must be a [start, end] list"
    let randFields ← jObjOrEmpty (jGet p "randomize")
    let randomize ← normalize_randomize rid idx randFields
    let freq_hz ← match jGetOpt p "freq_hz" with
      | none => pure (none : Option ℚ)
      | some v => do
          let q ← jFloat v
          pure (some q)
    let lp_hz ← match jGetOpt p "lp_hz" with
      | none => pure (none : Option ℚ)
      | some v => do
          let q ← jFloat v
          pure (some q)
    .ok ⟨layer_type, waveform, freq_hz, lp_hz, amp, env, pitch_glide, randomize⟩
  | _ => .error s!"Recipe {rid} layer {idx} must be an object"

/-- The layer list comprehension `[self._normalize_layer(recipe_id, idx, layer)
for idx, layer in enumerate(layers_raw)]`. -/
def normalize_layers (rid : String) : Nat → List JValue →
    Except String (List LayerSpec)
  | _, [] => .ok []
  | idx, l :: rest => do
      let x ← normalize_layer rid idx l
      let xs ← normalize_layers rid (idx + 1) rest
      .ok (x :: xs)

/-- The `has_randomization = any(...)` reduction. -/
def hasRandomization (layers : List LayerSpec) : Bool :=
  layers.any fun l =>
    l.randomize.pitch_semitones > 0 || l.randomize.amp_pct > 0 ||
      l.randomize.start_ms > 0

/-- `SFXRecipes._normalize_recipe`. -/
def normalize_recipe (rid : String) (payload : JValue) :
    Except String RecipeSpec := do
  match payload with
  | .obj p => do
      let duration_ms ← jFloatD p "duration_ms" 500
      if duration_ms ≤ 0 then
        .error s!"Recipe {rid} duration must be positive"
      else
      let loop := jTruthy ((jGet p "loop").getD (.bool false))
      let loop_length_ms ← match jGetOpt p "loop_length_ms" with
        | none => pure (none : Option ℚ)
        | some v => do
            let q ← jFloat v
            pure (some q)
      let headroom_db ← jFloatD p "headroom_db" (-6)
      match (jGet p "layers").getD (.arr []) with
      | .arr items =>
          if items.isEmpty then
            .error s!"Recipe {rid} must define at least one layer"
          else do
            let layers ← normalize_layers rid 0 items
            .ok ⟨rid, duration_ms, loop, loop_length_ms, headroom_db, layers,
                 hasRandomization layers⟩
      | _ => .error s!"Recipe {rid} must define at least one layer"
  | _ => .error s!"Recipe {rid} must be an object"

/-- `SFXRecipes._load` applied to parsed source data (a mapping from recipe
id to payload): normalize every entry in order, aborting on the first
error. -/
def loadRecipes : List (String × JValue) → Except String (List (String × RecipeSpec))
  | [] => .ok []
  | (rid, payload) :: rest => do
      let spec ← normalize_recipe rid payload
      let others ← loadRecipes rest
      .ok ((rid, spec) :: others)

/-- A minimal valid noise layer. -/
def layerNoiseJ : JValue := .obj [("type", .str "noise")]

/-- Recipe `A`: one noise layer. -/
def recipeAJ : JValue := .obj [("layers", .arr [layerNoiseJ])]

/-- Recipe `B`: `extends: A` and no `layers` field. -/
def recipeBJ : JValue := .obj [("extends", .str "A")]

/-- The inheritance test source: `B` extends `A`. -/
def cxRecipeSrc : List (String × JValue) := [("A", recipeAJ), ("B", recipeBJ)]

theorem jGet_aerase_ne (p : List (String × JValue)) (k k' : String)
    (h : k' ≠ k) : jGet (aerase p k) k' = jGet p k' := by
  unfold jGet
  rw [alookup_aerase]
  simp [h]

theorem jFloatD_aerase_ne (p : List (String × JValue)) (k k' : String)
    (dflt : ℚ) (h : k' ≠ k) :
    jFloatD (aerase p k) k' dflt = jFloatD p k' dflt := by
  unfold jFloatD
  rw [jGet_aerase_ne p k k' h]

theorem jGetOpt_aerase_ne (p : List (String × JValue)) (k k' : String)
    (h : k' ≠ k) : jGetOpt (aerase p k) k' = jGetOpt p k' := by
  unfold jGetOpt
  rw [jGet_aerase_ne p k k' h]

/-- C4 counterexample: loading a source in which recipe `B` declares
`extends: A` and no `layers` field does NOT produce a `RecipeSpec` for `B`
with `A`'s layers — it fails with the ordinary missing-layers `RecipeError`.
There is no inheritance resolution and no `CyclicInheritance` error anywhere
in `src/audio/recipes.py`. -/
theorem recipes_no_inheritance_cx :
    loadRecipes cxRecipeSrc = .error "Recipe B must define at least one layer" := by
  with_unfolding_all rfl

/-- C4 (amended): recipe normalization ignores the `extends` key entirely
(removing it from any payload never changes the result), and in particular
the `B extends A` source fails to load with the missing-layers error instead
of inheriting `A`'s layers. -/
theorem normalize_recipe_ignores_extends :
    (∀ (rid : String) (p : List (String × JValue)),
        normalize_recipe rid (.obj (aerase p "extends")) =
          normalize_recipe rid (.obj p)) ∧
    loadRecipes cxRecipeSrc = .error "Recipe B must define at least one layer" := by
  constructor
  · intro rid p
    show (do
        let duration_ms ← jFloatD (aerase p "extends") "duration_ms" 500
        (if duration_ms ≤ 0 then
          Except.error s!"Recipe {rid} duration must be positive"
        else do
          let loop := jTruthy ((jGet (aerase p "extends") "loop").getD (.bool false))
          let loop_length_ms ← match jGetOpt (aerase p "extends") "loop_length_ms" with
            | none => pure (none : Option ℚ)
            | some v => do
                let q ← jFloat v
                pure (some q)
          let headroom_db ← jFloatD (aerase p "extends") "headroom_db" (-6)
          match (jGet (aerase p "extends") "layers").getD (.arr []) with
          | .arr items =>
              if items.isEmpty then
                Except.error s!"Recipe {rid} must define at least one layer"
              else do
                let layers ← normalize_layers rid 0 items
                Except.ok ⟨rid, duration_ms, loop, loop_length_ms, headroom_db,
                  layers, hasRandomization layers⟩
          | _ => Except.error s!"Recipe {rid} must define at least one layer")) =
        normalize_recipe rid (.obj p)
    rw [jFloatD_aerase_ne p "extends" "duration_ms" 500 (by decide),
        jGet_aerase_ne p "extends" "loop" (by decide),
        jGetOpt_aerase_ne p "extends" "loop_length_ms" (by decide),
        jFloatD_aerase_ne p "extends" "headroom_db" (-6) (by decide),
        jGet_aerase_ne p "extends" "layers" (by decide)]
    rfl
  · with_unfolding_all rfl

/-! ### Renderer normalization (`src/audio/renderer.py`, `Renderer.render`)

The per-layer synthesis (`_render_layer` and friends) produces the summed
mono accumulation buffer `mix`; the normalization stage below is stated for
an arbitrary such buffer, which covers every rendered recipe.  NumPy float
arithmetic is modelled over `ℝ`. -/

/-- `db_to_linear` from the source: `10 ** (db / 20.0)`. -/
noncomputable def db_to_linear (db : ℝ) : ℝ := (10 : ℝ) ^ (db / 20)

/-- `peak = float(np.max(np.abs(mix)))` (0 for the empty buffer, matching
NumPy only in that the loader guarantees at least one sample). -/
def peak (mix : List ℝ) : ℝ := mix.foldr (fun x acc => max |x| acc) 0

/-- The tail of `Renderer.render` after the layer sum: scale the mix so its
peak hits `10^(headroom_db/20)` unless the peak is zero, then apply the
caller-supplied `amp_scale`. -/
noncomputable def render_normalize (mix : List ℝ) (headroom_db amp_scale : ℝ) :
    List ℝ :=
  let target := db_to_linear headroom_db
  let p := peak mix
  let scaled := if 0 < p then mix.map (fun x => x * (target / p)) else mix
  scaled.map (fun x => x * amp_scale)

/-- `np.stack([mix, mix], axis=1)`: the stereo duplication of the
normalized mono buffer. -/
noncomputable def render_stereo (mix : List ℝ) (headroom_db amp_scale : ℝ) :
    List (ℝ × ℝ) :=
  (render_normalize mix headroom_db amp_scale).map (fun x => (x, x))

theorem peak_nonneg (mix : List ℝ) : 0 ≤ peak mix := by
  induction mix with
  | nil => simp [peak]
  | cons x xs ih =>
    show 0 ≤ max |x| (peak xs)
    exact le_max_of_le_right ih

theorem abs_le_peak (mix : List ℝ) (x : ℝ) (hx : x ∈ mix) : |x| ≤ peak mix := by
  induction mix with
  | nil => cases hx
  | cons y ys ih =>
    rcases List.mem_cons.mp hx with h | h
    · subst h
      exact le_max_left _ _
    · exact le_trans (ih h) (le_max_right _ _)

theorem peak_map_mul (mix : List ℝ) (c : ℝ) (hc : 0 ≤ c) :
    peak (mix.map (fun x => x * c)) = peak mix * c := by
  induction mix with
  | nil => simp [peak]
  | cons x xs ih =>
    show max |x * c| (peak (xs.map (fun x => x * c))) = max |x| (peak xs) * c
    rw [ih, abs_mul, abs_of_nonneg hc, max_mul_of_nonneg _ _ hc]

theorem peak_eq_zero_all_zero (mix : List ℝ) (h : peak mix = 0) :
    ∀ x ∈ mix, x = 0 := by
  intro x hx
  have h1 : |x| ≤ 0 := h ▸ abs_le_peak mix x hx
  have h2 : |x| = 0 := le_antisymm h1 (abs_nonneg x)
  exact abs_eq_zero.mp h2

theorem db_to_linear_pos (db : ℝ) : 0 < db_to_linear db :=
  Real.rpow_pos_of_pos (by norm_num) _

/-- C5: with the default event gain (`amp_scale = 1`), a rendered buffer
with a nonzero layer sum is scaled so its peak equals `10^(headroom_db/20)`
exactly (over `ℝ`; "within floating-point tolerance" in the source) and no
sample exceeds that target; an identically zero mix skips the scaling and is
returned as the all-zero buffer. -/
theorem render_headroom_normalization (mix : List ℝ) (headroom_db : ℝ) :
    (0 < peak mix →
        peak (render_normalize mix headroom_db 1) = db_to_linear headroom_db ∧
        ∀ x ∈ render_normalize mix headroom_db 1, |x| ≤ db_to_linear headroom_db) ∧
    (peak mix = 0 →
        render_normalize mix headroom_db 1 = mix ∧ ∀ x ∈ mix, x = 0) := by
  constructor
  · intro hp
    have hmap1 : ∀ l : List ℝ, l.map (fun x => x * (1 : ℝ)) = l := by
      intro l
      simp
    have hres : render_normalize mix headroom_db 1 =
        mix.map (fun x => x * (db_to_linear headroom_db / peak mix)) := by
      show ((if 0 < peak mix then
          mix.map (fun x => x * (db_to_linear headroom_db / peak mix))
        else mix).map (fun x => x * 1)) = _
      rw [if_pos hp]
      exact hmap1 _
    have htp : 0 ≤ db_to_linear headroom_db / peak mix :=
      div_nonneg (le_of_lt (db_to_linear_pos headroom_db)) (le_of_lt hp)
    have hpk : peak (render_normalize mix headroom_db 1) = db_to_linear headroom_db := by
      rw [hres, peak_map_mul mix _ htp, mul_comm,
          div_mul_cancel₀ _ (ne_of_gt hp)]
    refine ⟨hpk, fun x hx => ?_⟩
    exact hpk ▸ abs_le_peak _ x hx
  · intro hp
    have hres : render_normalize mix headroom_db 1 = mix := by
      show ((if 0 < peak mix then
          mix.map (fun x => x * (db_to_linear headroom_db / peak mix))
        else mix).map (fun x => x * 1)) = _
      rw [if_neg (by rw [hp]; exact lt_irrefl 0)]
      simp
    exact ⟨hres, peak_eq_zero_all_zero mix hp⟩

theorem render_headroom_normalization_witness :
    0 < peak [(1 : ℝ)] ∧
    peak (render_normalize [(1 : ℝ)] 0 1) = db_to_linear 0 := by
  have hp : 0 < peak [(1 : ℝ)] := by
    show (0 : ℝ) < max |(1 : ℝ)| 0
    norm_num
  exact ⟨hp, ((render_headroom_normalization [(1 : ℝ)] 0).1 hp).1⟩

/-! ### Equal-power panning (`src/audio/sfx.py`, `SFX._compute_volumes`)

The pan law over `ℝ`.  The source computes
`left = sqrt((1 - normalised) / 2)`, `right = sqrt((1 + normalised) / 2)`
and multiplies both by the dB-derived linear gain. -/

/-- The pan-factor pair of `_compute_volumes` for a supplied position `x`
and screen width `width`. -/
noncomputable def pan_factors (x width : ℝ) : ℝ × ℝ :=
  let normalised := max (-1) (min 1 ((x / width) * 2 - 1))
  (Real.sqrt ((1 - normalised) / 2), Real.sqrt ((1 + normalised) / 2))

/-- `SFX._compute_volumes` over `ℝ`: `total_db = bus.base_gain_db +
spec.base_gain + duck_gain`, `linear_gain = exp(total_db * ln 10 / 20) *
volume_factor`; unity pan gain when panning is off, a position is missing,
or the width is nonpositive. -/
noncomputable def compute_volumes (bus_base_gain_db base_gain duck_gain
    volume_factor : ℝ) (pan : Bool) (pos screen_size : Option (ℝ × ℝ)) :
    ℝ × ℝ :=
  let total_db := bus_base_gain_db + base_gain + duck_gain
  let linear_gain := Real.exp (total_db * (Real.log 10 / 20)) * volume_factor
  match pan, pos, screen_size with
  | true, some p, some sc =>
      if sc.1 ≤ 0 then (linear_gain, linear_gain)
      else (linear_gain * (pan_factors p.1 sc.1).1,
            linear_gain * (pan_factors p.1 sc.1).2)
  | _, _, _ => (linear_gain, linear_gain)

/-- C7: the pan factors satisfy `left² + right² = 1` at every position
(exactly over `ℝ`), are equal at the horizontal center, are `(1, 0)` at the
left edge, and when panning is off or a position is missing both channels
receive the same unity-pan gain. -/
theorem equal_power_pan :
    (∀ x width : ℝ, 0 < width →
        (pan_factors x width).1 ^ 2 + (pan_factors x width).2 ^ 2 = 1) ∧
    (∀ width : ℝ, 0 < width →
        (pan_factors (width / 2) width).1 = (pan_factors (width / 2) width).2) ∧
    (∀ width : ℝ, 0 < width →
        (pan_factors 0 width).1 = 1 ∧ (pan_factors 0 width).2 = 0) ∧
    (∀ (b g d v : ℝ) (pan : Bool) (pos sc : Option (ℝ × ℝ)),
        pan = false ∨ pos = none ∨ sc = none →
        compute_volumes b g d v pan pos sc =
          (Real.exp ((b + g + d) * (Real.log 10 / 20)) * v,
           Real.exp ((b + g + d) * (Real.log 10 / 20)) * v)) := by
  refine ⟨fun x width hw => ?_, fun width hw => ?_, fun width hw => ?_,
          fun b g d v pan pos sc h => ?_⟩
  · show Real.sqrt ((1 - max (-1) (min 1 ((x / width) * 2 - 1))) / 2) ^ 2 +
        Real.sqrt ((1 + max (-1) (min 1 ((x / width) * 2 - 1))) / 2) ^ 2 = 1
    set n := max (-1) (min 1 ((x / width) * 2 - 1)) with hn
    have hn1 : (-1 : ℝ) ≤ n := le_max_left _ _
    have hn2 : n ≤ 1 := max_le (by norm_num) (min_le_left _ _)
    rw [Real.sq_sqrt (by linarith), Real.sq_sqrt (by linarith)]
    ring
  · have hx : (width / 2) / width * 2 - 1 = 0 := by
      field_simp
      ring
    show Real.sqrt ((1 - max (-1) (min 1 ((width / 2) / width * 2 - 1))) / 2) =
        Real.sqrt ((1 + max (-1) (min 1 ((width / 2) / width * 2 - 1))) / 2)
    rw [hx]
    norm_num
  · have hx : (0 : ℝ) / width * 2 - 1 = -1 := by
      rw [zero_div]
      ring
    constructor
    · show Real.sqrt ((1 - max (-1) (min 1 ((0 : ℝ) / width * 2 - 1))) / 2) = 1
      rw [hx]
      norm_num
    · show Real.sqrt ((1 + max (-1) (min 1 ((0 : ℝ) / width * 2 - 1))) / 2) = 0
      rw [hx]
      norm_num [Real.sqrt_eq_zero']
  · rcases h with h | h | h
    · subst h
      cases pos <;> cases sc <;> rfl
    · subst h
      cases pan <;> cases sc <;> rfl
    · subst h
      cases pan <;> cases pos <;> rfl

theorem equal_power_pan_witness :
    (pan_factors 1 2).1 ^ 2 + (pan_factors 1 2).2 ^ 2 = 1 ∧
    (pan_factors 0 2).1 = 1 :=
  ⟨equal_power_pan.1 1 2 (by norm_num),
   (equal_power_pan.2.2.1 2 (by norm_num)).1⟩

/-! ### Runtime mixer (`src/audio/sfx.py`, class `SFX`)

Audio-disabled configuration: every `Voice.channel` is `None`, so channel
calls are no-ops and culling always takes the virtual-time path.  Wall-clock
`time.time()` is passed in as the `now` argument; the per-call random
pitch/volume draws and the pan computation (verified separately over `ℝ`)
enter only through the `left`/`right` oracle arguments, which the
state-transition logic never inspects.  The number of asset variants
resolved for an event (`_resolve_variants`; 3 on the procedural-fallback
path, never 0) is the `total` argument. -/

/-- The `EventSpec` consumed by `SFX` (the fields `sfx.py` reads). -/
structure EventSpec where
  name : String
  bus : String
  loop : Bool
  cooldown_ms : ℚ
  base_gain : ℚ
  pan : Bool
  priority : Int
  vol_jitter : ℚ
  pitch_jitter_semitones : ℚ
  variants : List String
deriving DecidableEq

/-- `Bus` dataclass. -/
structure Bus where
  name : String
  base_gain_db : ℚ
  cap : Nat
deriving DecidableEq

/-- `DuckWindow` dataclass. -/
structure DuckWindow where
  gain_db : ℚ
  remaining : ℚ
deriving DecidableEq

/-- `Voice` dataclass (channel omitted: always `None` with audio disabled;
`virtual_time = none` models `float("inf")`). -/
structure Voice where
  event : String
  bus : String
  priority : Int
  start_time : ℚ
  loop : Bool
  left : ℚ
  right : ℚ
  virtual_time : Option ℚ
deriving DecidableEq

/-- The mutable state of an `SFX` instance (audio-disabled). -/
structure SFXState where
  buses : List (String × Bus)
  voices : List (String × List Voice)
  loops : List (String × Voice)
  cooldowns : List (String × ℚ)
  variant_indices : List (String × Nat)
  ducking : List (String × List DuckWindow)
  duck_gain : List (String × ℚ)
  last_events : List String
deriving DecidableEq

/-- `SFX.__init__` state (audio disabled). -/
def initState : SFXState where
  buses := [("ui", ⟨"ui", -10, 8⟩), ("sfx", ⟨"sfx", -8, 16⟩),
            ("loops", ⟨"loops", -14, 4⟩), ("music", ⟨"music", -12, 2⟩)]
  voices := [("ui", []), ("sfx", []), ("loops", []), ("music", [])]
  loops := []
  cooldowns := []
  variant_indices := []
  ducking := [("ui", []), ("sfx", []), ("loops", []), ("music", [])]
  duck_gain := [("ui", 0), ("sfx", 0), ("loops", 0), ("music", 0)]
  last_events := []

/-- `SFX._cooldown_ready`. -/
def cooldown_ready (s : SFXState) (spec : EventSpec) : Bool :=
  decide (alookupD s.cooldowns spec.name 0 ≤ 0)

/-- `SFX._arm_cooldown`. -/
def arm_cooldown (s : SFXState) (spec : EventSpec) : SFXState :=
  { s with cooldowns := aset s.cooldowns spec.name (max 0 (spec.cooldown_ms / 1000)) }

/-- `SFX._advance_cooldowns`: subtract `dt` from every entry, delete the
ones that drop to `<= 0`. -/
def advance_cooldowns (s : SFXState) (dt : ℚ) : SFXState :=
  { s with cooldowns := s.cooldowns.filterMap fun p =>
      if p.2 - dt ≤ 0 then none else some (p.1, p.2 - dt) }

/-- `min(window.gain_db for windows)` with the empty case mapped to 0 dB,
as in `SFX._recalculate_duck`. -/
def duckGainOf : List DuckWindow → ℚ
  | [] => 0
  | w :: ws => ws.foldl (fun acc w2 => min acc w2.gain_db) w.gain_db

/-- `SFX._recalculate_duck` for one bus. -/
def recalculate_duck (s : SFXState) (bus : String) : SFXState :=
  { s with duck_gain := aset s.duck_gain bus (duckGainOf (alookupD s.ducking bus [])) }

/-- The bus's window list with the new `DuckWindow(gain_db, max(0, ms/1000))`
appended. -/
def duckedWindows (s : SFXState) (b : String) (gain_db ms : ℚ) : List DuckWindow :=
  alookupD s.ducking b [] ++ [⟨gain_db, max 0 (ms / 1000)⟩]

/-- `SFX.duck`. -/
def duck (s : SFXState) (bus : String) (gain_db : ℚ) (ms : ℚ) : SFXState :=
  if (alookup s.ducking bus.toLower).isSome then
    recalculate_duck { s with ducking := aset s.ducking bus.toLower (duckedWindows s bus.toLower gain_db ms) } bus.toLower
  else s

/-- One aging pass of `SFX._advance_ducking`: every window loses `dt`,
windows at `<= 0` are dropped. -/
def agedDucking (s : SFXState) (dt : ℚ) : List (String × List DuckWindow) :=
  s.ducking.map fun p =>
    (p.1, p.2.filterMap fun w =>
      if 0 < w.remaining - dt then some ⟨w.gain_db, w.remaining - dt⟩ else none)

/-- `SFX._advance_ducking`: age all windows, then recalculate every bus's
duck gain. -/
def advance_ducking (s : SFXState) (dt : ℚ) : SFXState :=
  ((agedDucking s dt).map Prod.fst).foldl recalculate_duck { s with ducking := agedDucking s dt }

/-- `SFX._next_variant_index`. -/
def next_variant_index (s : SFXState) (event : String) (total : Nat) :
    Nat × SFXState :=
  let idx := alookupD s.variant_indices event 0
  (idx, { s with variant_indices := aset s.variant_indices event ((idx + 1) % total) })

/-- The `Voice(...)` construction in `SFX._create_voice` (audio disabled:
`build_sound` returns `None`, so `channel` stays `None`). -/
def mkVoice (s : SFXState) (spec : EventSpec) (now left right : ℚ)
    (loop : Bool) : Voice where
  event := spec.name
  bus := if (alookup s.buses spec.bus).isSome then spec.bus else "sfx"
  priority := spec.priority
  start_time := now
  loop := loop
  left := left
  right := right
  virtual_time := some (2/5)

/-- `SFX._create_voice`: advances the round-robin variant index as a side
effect and builds the voice. -/
def create_voice (s : SFXState) (spec : EventSpec) (total : Nat)
    (now left right : ℚ) (loop : Bool) : Voice × SFXState :=
  let s2 := (next_variant_index s spec.name total).2
  (mkVoice s spec now left right loop, s2)

/-- The lexicographic Python sort key `(v.priority, v.start_time)`. -/
def voiceLe (a b : Voice) : Prop :=
  a.priority < b.priority ∨ (a.priority = b.priority ∧ a.start_time ≤ b.start_time)

instance : DecidableRel voiceLe := fun a b => by
  unfold voiceLe
  infer_instance

instance : IsTotal Voice voiceLe where
  total a b := by
    unfold voiceLe
    rcases lt_trichotomy a.priority b.priority with h | h | h
    · exact Or.inl (Or.inl h)
    · rcases le_total a.start_time b.start_time with h2 | h2
      · exact Or.inl (Or.inr ⟨h, h2⟩)
      · exact Or.inr (Or.inr ⟨h.symm, h2⟩)
    · exact Or.inr (Or.inl h)

instance : IsTrans Voice voiceLe where
  trans a b c hab hbc := by
    unfold voiceLe at *
    rcases hab with h1 | ⟨h1, h1s⟩ <;> rcases hbc with h2 | ⟨h2, h2s⟩
    · exact Or.inl (lt_trans h1 h2)
    · exact Or.inl (h2 ▸ h1)
    · exact Or.inl (h1 ▸ h2)
    · exact Or.inr ⟨h1.trans h2, le_trans h1s h2s⟩

/-- `SFX._choose_voice_to_steal`: stable sort by `(priority, start_time)`,
then the first candidate whose priority does not exceed the incoming
priority (`candidate.priority <= incoming_priority`). -/
def choose_voice_to_steal (voices : List Voice) (incoming_priority : Int) :
    Option Voice :=
  (voices.insertionSort voiceLe).find? fun c =>
    decide (c.priority ≤ incoming_priority)

/-- `SFX._remove_voice` (channel stop is a no-op; the Python identity test
`self._loops[voice.event] is voice` is modelled as structural equality). -/
def remove_voice (s : SFXState) (v : Voice) : SFXState :=
  let s1 :=
    match alookup s.voices v.bus with
    | some bv =>
        if v ∈ bv then { s with voices := aset s.voices v.bus (bv.erase v) }
        else s
    | none => s
  match alookup s1.loops v.event with
  | some lv => if lv = v then { s1 with loops := aerase s1.loops v.event } else s1
  | none => s1

/-- `SFX._register_voice`. -/
def register_voice (s : SFXState) (v : Voice) : Bool × SFXState :=
  let vs := alookupD s.voices v.bus []
  let cap := (alookupD s.buses v.bus ⟨v.bus, 0, 0⟩).cap
  if cap ≤ vs.length then
    match choose_voice_to_steal vs v.priority with
    | none => (false, s)
    | some victim =>
        let s1 := remove_voice s victim
        let vs1 := alookupD s1.voices v.bus [] ++ [v]
        (true, { s1 with voices := aset s1.voices v.bus vs1 })
  else
    (true, { s with voices := aset s.voices v.bus (vs ++ [v]) })

/-- `SFX._record_event`: keep the last 10 event names. -/
def record_event (s : SFXState) (event : String) : SFXState :=
  let le2 := s.last_events ++ [event]
  { s with last_events := if 10 < le2.length then le2.drop (le2.length - 10) else le2 }

/-- Replace (in place) every stored occurrence of the mutated `Voice`
object: Python mutates the single aliased object referenced from both the
bus list and the loop index. -/
def replaceVoice (s : SFXState) (old new : Voice) : SFXState :=
  { s with voices := s.voices.map fun p =>
      (p.1, p.2.map fun w => if w = old then new else w) }

/-- `SFX.play_loop` (the passed spec already has `loop = True` on this
path). -/
def play_loop (s : SFXState) (spec : EventSpec) (total : Nat)
    (now left right : ℚ) : Bool × SFXState :=
  let existing := alookup s.loops spec.name
  if total = 0 then (false, s)
  else
    let vs := create_voice s spec total now left right true
    let v := vs.1
    let s1 := vs.2
    match existing with
    | some ex =>
        let ex2 := { ex with left := v.left, right := v.right,
                             priority := v.priority, virtual_time := none }
        (true, { (replaceVoice s1 ex ex2) with
                   loops := aset s1.loops spec.name ex2 })
    | none =>
        match register_voice s1 v with
        | (false, s2) => (false, s2)
        | (true, s2) =>
            let v2 := { v with virtual_time := none }
            let s3 := replaceVoice s2 v v2
            (true, record_event { s3 with loops := aset s3.loops spec.name v2 }
              spec.name)

/-- `SFX.play` (non-loop path; a loop-flagged spec redirects to
`play_loop`).  `total = 0` models the empty-variants early `None` return of
`_create_voice`, which cannot occur on the fallback path. -/
def play (s : SFXState) (spec : EventSpec) (total : Nat)
    (now left right : ℚ) : Bool × SFXState :=
  if spec.loop then play_loop s spec total now left right
  else if ¬cooldown_ready s spec then (false, s)
  else if total = 0 then (false, s)
  else
    let vs := create_voice s spec total now left right false
    match register_voice vs.2 vs.1 with
    | (false, s2) => (false, s2)
    | (true, s2) => (true, record_event (arm_cooldown s2 spec) spec.name)

/-- `SFX.stop_loop`. -/
def stop_loop (s : SFXState) (event : String) : Bool × SFXState :=
  match alookup s.loops event with
  | none => (false, s)
  | some v => (true, remove_voice { s with loops := aerase s.loops event } v)

/-- One voice's fate in `SFX._cull_finished_voices` (audio disabled: the
channel branch is skipped; `virtual_time` is decremented by the fixed
0.016 before the `> 0` check; `none` models `inf`, and `inf - 0.016` stays
`inf > 0`). -/
def cullStep (v : Voice) : Option Voice :=
  if v.loop then some v
  else
    match v.virtual_time with
    | none => some v
    | some t =>
        if 0 < t - 2/125 then some { v with virtual_time := some (t - 2/125) }
        else none

/-- `SFX._cull_finished_voices`. -/
def cull_finished_voices (s : SFXState) : SFXState :=
  { s with voices := s.voices.map fun p => (p.1, p.2.filterMap cullStep) }

/-- `SFX._refresh_loops`: only re-applies channel volumes, a no-op with
audio disabled. -/
def refresh_loops (s : SFXState) : SFXState := s

/-- `SFX.update`. -/
def update (s : SFXState) (dt : ℚ) : SFXState :=
  refresh_loops (cull_finished_voices (advance_ducking (advance_cooldowns s dt) dt))

/-- The admitted-voice state: the incoming voice appended to its bus. -/
def admitVoice (s : SFXState) (v : Voice) : SFXState :=
  { s with voices := aset s.voices v.bus (alookupD s.voices v.bus [] ++ [v]) }

/-! ### Voice-stealing lemmas (C1) -/

theorem voiceLe_priority (a b : Voice) (h : voiceLe a b) :
    a.priority ≤ b.priority := by
  rcases h with h | ⟨h, _⟩
  · exact le_of_lt h
  · exact le_of_eq h

theorem voiceLe_refl (a : Voice) : voiceLe a a := Or.inr ⟨rfl, le_refl _⟩

theorem choose_voice_none_iff (vs : List Voice) (p : Int) :
    choose_voice_to_steal vs p = none ↔ ∀ c ∈ vs, p < c.priority := by
  unfold choose_voice_to_steal
  rw [List.find?_eq_none]
  constructor
  · intro h c hc
    have hc2 : c ∈ vs.insertionSort voiceLe :=
      ((List.perm_insertionSort voiceLe vs).mem_iff).mpr hc
    have h2 := h c hc2
    simpa [not_le] using h2
  · intro h c hc
    have hc2 : c ∈ vs := ((List.perm_insertionSort voiceLe vs).mem_iff).mp hc
    simp only [decide_eq_true_eq]
    exact not_le.mpr (h c hc2)

theorem choose_voice_some_spec (vs : List Voice) (p : Int) (victim : Voice)
    (h : choose_voice_to_steal vs p = some victim) :
    victim ∈ vs ∧ victim.priority ≤ p ∧ ∀ c ∈ vs, voiceLe victim c := by
  have hsort : (vs.insertionSort voiceLe).Sorted voiceLe :=
    List.sorted_insertionSort voiceLe vs
  have hperm := List.perm_insertionSort voiceLe vs
  unfold choose_voice_to_steal at h
  rcases hl : vs.insertionSort voiceLe with _ | ⟨a, t⟩
  · rw [hl] at h
    cases h
  · rw [hl] at h hsort
    by_cases ha : a.priority ≤ p
    · have hfind : (a :: t).find? (fun c => decide (c.priority ≤ p)) = some a := by
        simp [List.find?, ha]
      rw [hfind] at h
      obtain rfl : a = victim := by injection h
      have hmem : a ∈ vs := hperm.mem_iff.mp (by rw [hl]; exact List.mem_cons_self a t)
      refine ⟨hmem, ha, fun c hc => ?_⟩
      have hc2 : c ∈ a :: t := by
        rw [← hl]
        exact hperm.mem_iff.mpr hc
      rcases List.mem_cons.mp hc2 with rfl | hct
      · exact voiceLe_refl c
      · exact (List.sorted_cons.mp hsort).1 c hct
    · exfalso
      have hnone : (a :: t).find? (fun c => decide (c.priority ≤ p)) = none := by
        rw [List.find?_eq_none]
        intro c hc
        rcases List.mem_cons.mp hc with rfl | hct
        · simp only [decide_eq_true_eq]
          exact ha
        · have h1 : voiceLe a c := (List.sorted_cons.mp hsort).1 c hct
          have h2 : a.priority ≤ c.priority := voiceLe_priority a c h1
          simp only [decide_eq_true_eq]
          exact fun hcp => ha (le_trans h2 hcp)
      rw [hnone] at h
      cases h

theorem register_voice_under_cap (s : SFXState) (v : Voice)
    (h : (alookupD s.voices v.bus []).length <
      (alookupD s.buses v.bus ⟨v.bus, 0, 0⟩).cap) :
    register_voice s v = (true, admitVoice s v) := by
  simp only [register_voice]
  rw [if_neg (not_le.mpr h)]
  rfl

theorem register_voice_at_cap_none (s : SFXState) (v : Voice)
    (h : (alookupD s.buses v.bus ⟨v.bus, 0, 0⟩).cap ≤
      (alookupD s.voices v.bus []).length)
    (hc : choose_voice_to_steal (alookupD s.voices v.bus []) v.priority = none) :
    register_voice s v = (false, s) := by
  simp only [register_voice]
  rw [if_pos h, hc]

theorem register_voice_at_cap_some (s : SFXState) (v : Voice) (victim : Voice)
    (h : (alookupD s.buses v.bus ⟨v.bus, 0, 0⟩).cap ≤
      (alookupD s.voices v.bus []).length)
    (hc : choose_voice_to_steal (alookupD s.voices v.bus []) v.priority = some victim) :
    register_voice s v = (true, admitVoice (remove_voice s victim) v) := by
  simp only [register_voice]
  rw [if_pos h, hc]
  rfl

theorem register_voice_false_eq (s : SFXState) (v : Voice)
    (h : (register_voice s v).1 = false) : register_voice s v = (false, s) := by
  by_cases hcap : (alookupD s.buses v.bus ⟨v.bus, 0, 0⟩).cap ≤
      (alookupD s.voices v.bus []).length
  · rcases hc : choose_voice_to_steal (alookupD s.voices v.bus []) v.priority with
      _ | victim
    · exact register_voice_at_cap_none s v hcap hc
    · rw [register_voice_at_cap_some s v victim hcap hc] at h ⊢
      cases h
  · rw [register_voice_under_cap s v (not_le.mp hcap)] at h ⊢
    cases h

/-- Two voices of equal priority 10 on the capacity-2 `music` bus, the first
(`start_time` 0) older than the second (`start_time` 1). -/
def vLow10a : Voice := ⟨"low", "music", 10, 0, false, 1, 1, some (2/5)⟩

def vLow10b : Voice := ⟨"low", "music", 10, 1, false, 1, 1, some (2/5)⟩

/-- A mixer state whose `music` bus (capacity 2) is full. -/
def stateMusicFull : SFXState :=
  { initState with voices :=
      [("ui", []), ("sfx", []), ("loops", []), ("music", [vLow10a, vLow10b])] }

/-- An incoming request voice for the `music` bus. -/
def reqVoice (p : Int) (t : ℚ) : Voice := ⟨"req", "music", p, t, false, 1, 1, some (2/5)⟩

/-- The state after the priority-100 steal: the older priority-10 voice is
gone, the newer one stays, the incoming voice is appended. -/
def stateMusicStolen : SFXState :=
  { initState with voices :=
      [("ui", []), ("sfx", []), ("loops", []), ("music", [vLow10b, reqVoice 100 2])] }

/-- C1: below capacity a voice is admitted unconditionally; at capacity the
victim candidate is lexicographically minimal in `(priority, start_time)`
(lowest priority, oldest on ties), the request is rejected with the state
unchanged iff the incoming priority is strictly below every resident's
priority (equivalently the candidate's), and otherwise the candidate is
evicted and the incoming voice appended.  Concretely on a full capacity-2
`music` bus holding two priority-10 voices: a priority-5 request is
rejected leaving the state untouched, and a priority-100 request evicts
exactly the older priority-10 voice. -/
theorem register_voice_priority_steal :
    (∀ (s : SFXState) (v : Voice),
        (alookupD s.voices v.bus []).length <
          (alookupD s.buses v.bus ⟨v.bus, 0, 0⟩).cap →
        register_voice s v = (true, admitVoice s v)) ∧
    (∀ (s : SFXState) (v : Voice),
        (alookupD s.buses v.bus ⟨v.bus, 0, 0⟩).cap ≤
          (alookupD s.voices v.bus []).length →
        ((register_voice s v = (false, s) ↔
            ∀ c ∈ alookupD s.voices v.bus [], v.priority < c.priority) ∧
         ∀ victim,
           choose_voice_to_steal (alookupD s.voices v.bus []) v.priority =
             some victim →
           victim ∈ alookupD s.voices v.bus [] ∧
           victim.priority ≤ v.priority ∧
           (∀ c ∈ alookupD s.voices v.bus [], voiceLe victim c) ∧
           register_voice s v = (true, admitVoice (remove_voice s victim) v))) ∧
    register_voice stateMusicFull (reqVoice 5 2) = (false, stateMusicFull) ∧
    register_voice stateMusicFull (reqVoice 100 2) = (true, stateMusicStolen) := by
  refine ⟨register_voice_under_cap, fun s v hcap => ⟨⟨?_, ?_⟩, ?_⟩, ?_, ?_⟩
  · intro heq
    rcases hc : choose_voice_to_steal (alookupD s.voices v.bus []) v.priority with
      _ | victim
    · exact (choose_voice_none_iff _ _).mp hc
    · rw [register_voice_at_cap_some s v victim hcap hc] at heq
      cases heq
  · intro hall
    exact register_voice_at_cap_none s v hcap ((choose_voice_none_iff _ _).mpr hall)
  · intro victim hv
    obtain ⟨h1, h2, h3⟩ := choose_voice_some_spec _ _ _ hv
    exact ⟨h1, h2, h3, register_voice_at_cap_some s v victim hcap hv⟩
  · with_unfolding_all decide
  · with_unfolding_all decide

theorem register_voice_priority_steal_witness :
    register_voice initState (reqVoice 5 0) = (true, admitVoice initState (reqVoice 5 0)) :=
  register_voice_priority_steal.1 initState (reqVoice 5 0) (by decide)

/-! ### Cooldown gating (C2) -/

theorem play_cooldown_blocked (s : SFXState) (spec : EventSpec) (total : Nat)
    (now l r : ℚ) (h1 : spec.loop = false)
    (h2 : cooldown_ready s spec = false) :
    play s spec total now l r = (false, s) := by
  simp [play, h1, h2]

theorem play_admitted (s : SFXState) (spec : EventSpec) (total : Nat)
    (now l r : ℚ) (h1 : spec.loop = false)
    (h2 : cooldown_ready s spec = true) (h3 : total ≠ 0)
    (hcap : (alookupD s.voices (mkVoice s spec now l r false).bus []).length <
      (alookupD s.buses (mkVoice s spec now l r false).bus
        ⟨(mkVoice s spec now l r false).bus, 0, 0⟩).cap) :
    (play s spec total now l r).1 = true := by
  have hs2 : register_voice (create_voice s spec total now l r false).2
      (create_voice s spec total now l r false).1 =
      (true, admitVoice (create_voice s spec total now l r false).2
        (create_voice s spec total now l r false).1) :=
    register_voice_under_cap _ _ hcap
  simp only [play, h1, h2, h3]
  rw [hs2]
  simp

/-- The C2 cooldown trace: `burst` has `cooldown_ms = 200` on the
uncontended `sfx` bus. -/
def specBurst : EventSpec := ⟨"burst", "sfx", false, 200, 1, false, 0, 0, 0, []⟩

def playBurst1 : Bool × SFXState := play initState specBurst 3 0 1 1

def playBurst2 : Bool × SFXState := play playBurst1.2 specBurst 3 1 1 1

def playBurst3 : Bool × SFXState := play (update playBurst2.2 (21/100)) specBurst 3 2 1 1

/-- C2: a non-loop play is rejected with no state change whenever the armed
cooldown has not elapsed; on an uncontended bus (with variants available)
the call succeeds exactly when the cooldown is clear.  Concretely with
`cooldown_ms = 200`: play, immediate replay, `update(0.21)`, replay give
`true`, `false`, `true`. -/
theorem play_cooldown_gate :
    (∀ (s : SFXState) (spec : EventSpec) (total : Nat) (now l r : ℚ),
        spec.loop = false → cooldown_ready s spec = false →
        play s spec total now l r = (false, s)) ∧
    (∀ (s : SFXState) (spec : EventSpec) (total : Nat) (now l r : ℚ),
        spec.loop = false → total ≠ 0 →
        (alookupD s.voices (mkVoice s spec now l r false).bus []).length <
          (alookupD s.buses (mkVoice s spec now l r false).bus
            ⟨(mkVoice s spec now l r false).bus, 0, 0⟩).cap →
        ((play s spec total now l r).1 = true ↔ cooldown_ready s spec = true)) ∧
    playBurst1.1 = true ∧ playBurst2.1 = false ∧ playBurst3.1 = true := by
  refine ⟨play_cooldown_blocked, fun s spec total now l r h1 h3 hcap => ⟨?_, ?_⟩,
          ?_, ?_, ?_⟩
  · intro hp
    by_contra hcr
    have h2 : cooldown_ready s spec = false := by
      cases hcr2 : cooldown_ready s spec
      · rfl
      · exact absurd hcr2 hcr
    rw [play_cooldown_blocked s spec total now l r h1 h2] at hp
    cases hp
  · intro h2
    exact play_admitted s spec total now l r h1 h2 h3 hcap
  · with_unfolding_all decide
  · with_unfolding_all decide
  · with_unfolding_all decide

theorem play_cooldown_gate_witness :
    play playBurst1.2 specBurst 3 1 1 1 = (false, playBurst1.2) ∧
    (play initState specBurst 3 0 1 1).1 = true := by
  constructor
  · exact play_cooldown_gate.1 playBurst1.2 specBurst 3 1 1 1 rfl
      (by with_unfolding_all decide)
  · exact (play_cooldown_gate.2.1 initState specBurst 3 0 1 1 rfl (by decide)
      (by with_unfolding_all decide)).mpr (by with_unfolding_all decide)

/-! ### Ducking lemmas (C6) -/

theorem alookup_map_val (m : List (String × α)) (f : α → β) (k : String) :
    alookup (m.map fun p => (p.1, f p.2)) k = (alookup m k).map f := by
  induction m with
  | nil => rfl
  | cons p m ih =>
    rw [List.map_cons, alookup_cons, alookup_cons]
    by_cases h : p.1 = k
    · simp [h]
    · simpa [h] using ih

theorem alookup_none_keys (m : List (String × α)) (k : String) :
    alookup m k = none ↔ k ∉ m.map Prod.fst := by
  induction m with
  | nil => simp [alookup_nil]
  | cons p m ih =>
    rw [alookup_cons, List.map_cons]
    by_cases h : p.1 = k
    · simp [h]
    · rw [if_neg h]
      simp only [List.mem_cons]
      rw [ih]
      constructor
      · intro hn hor
        rcases hor with hor | hor
        · exact h hor.symm
        · exact hn hor
      · intro hn
        exact fun hm => hn (Or.inr hm)

theorem recalculate_duck_ducking (s : SFXState) (b : String) :
    (recalculate_duck s b).ducking = s.ducking := rfl

theorem foldl_recalc_ducking (ks : List String) (s : SFXState) :
    (ks.foldl recalculate_duck s).ducking = s.ducking := by
  induction ks generalizing s with
  | nil => rfl
  | cons k ks ih =>
    rw [List.foldl_cons, ih]
    rfl

theorem foldl_recalc_voices (ks : List String) (s : SFXState) :
    (ks.foldl recalculate_duck s).voices = s.voices := by
  induction ks generalizing s with
  | nil => rfl
  | cons k ks ih =>
    rw [List.foldl_cons, ih]
    rfl

theorem foldl_recalc_gain (ks : List String) (s : SFXState) (b : String) :
    alookupD (ks.foldl recalculate_duck s).duck_gain b 0 =
      if b ∈ ks then duckGainOf (alookupD s.ducking b [])
      else alookupD s.duck_gain b 0 := by
  induction ks generalizing s with
  | nil => simp
  | cons k ks ih =>
    rw [List.foldl_cons, ih]
    by_cases hbks : b ∈ ks
    · rw [if_pos hbks, if_pos (List.mem_cons.mpr (Or.inr hbks)),
          recalculate_duck_ducking]
    · rw [if_neg hbks]
      by_cases hbk : b = k
      · subst hbk
        rw [if_pos (List.mem_cons.mpr (Or.inl rfl)),
            show (recalculate_duck s b).duck_gain =
              aset s.duck_gain b (duckGainOf (alookupD s.ducking b [])) from rfl,
            alookupD_aset]
        simp
      · have hmem : b ∉ k :: ks := by
          intro hc
          rcases List.mem_cons.mp hc with hc | hc
          · exact hbk hc
          · exact hbks hc
        rw [if_neg hmem,
            show (recalculate_duck s k).duck_gain =
              aset s.duck_gain k (duckGainOf (alookupD s.ducking k [])) from rfl,
            alookupD_aset, if_neg hbk]

/-- What `update` does to one bus's duck windows: every window's remaining
time drops by `dt` and the expired ones disappear. -/
theorem advance_ducking_windows (s : SFXState) (dt : ℚ) (b : String) :
    alookupD (advance_ducking s dt).ducking b [] =
      (alookupD s.ducking b []).filterMap fun w =>
        if 0 < w.remaining - dt then some ⟨w.gain_db, w.remaining - dt⟩ else none := by
  unfold advance_ducking
  rw [show ∀ s2 : SFXState, alookupD ((((agedDucking s dt).map Prod.fst).foldl
        recalculate_duck s2)).ducking b [] = alookupD s2.ducking b []
      from fun s2 => by rw [foldl_recalc_ducking]]
  show alookupD (agedDucking s dt) b [] = _
  unfold agedDucking alookupD
  rw [alookup_map_val]
  cases alookup s.ducking b <;> rfl

theorem agedDucking_keys (s : SFXState) (dt : ℚ) :
    (agedDucking s dt).map Prod.fst = s.ducking.map Prod.fst := by
  unfold agedDucking
  rw [List.map_map]
  rfl

/-- The C6 invariant: each bus's effective duck gain is the minimum gain
over its stored windows (0 dB when there are none). -/
def duckInvariant (s : SFXState) : Prop :=
  ∀ b, alookupD s.duck_gain b 0 = duckGainOf (alookupD s.ducking b [])

theorem duckInvariant_init : duckInvariant initState := by
  intro b
  simp only [initState, alookupD, alookup_cons, alookup_nil]
  split_ifs <;> rfl

theorem recalc_restores (s : SFXState) (b : String)
    (h : ∀ b0, b0 ≠ b → alookupD s.duck_gain b0 0 = duckGainOf (alookupD s.ducking b0 [])) :
    duckInvariant (recalculate_duck s b) := by
  intro b0
  show alookupD (aset s.duck_gain b (duckGainOf (alookupD s.ducking b []))) b0 0 =
      duckGainOf (alookupD s.ducking b0 [])
  rw [alookupD_aset]
  by_cases hb0 : b0 = b
  · rw [if_pos hb0, hb0]
  · rw [if_neg hb0]
    exact h b0 hb0

theorem duck_preserves_invariant (s : SFXState) (bus : String) (g ms : ℚ)
    (h : duckInvariant s) : duckInvariant (duck s bus g ms) := by
  unfold duck
  by_cases hb : (alookup s.ducking bus.toLower).isSome
  · rw [if_pos hb]
    apply recalc_restores
    intro b0 hb0
    show alookupD s.duck_gain b0 0 =
        duckGainOf (alookupD (aset s.ducking bus.toLower (duckedWindows s bus.toLower g ms)) b0 [])
    rw [alookupD_aset, if_neg hb0]
    exact h b0
  · rw [if_neg hb]
    exact h

theorem advance_ducking_preserves_invariant (s : SFXState) (dt : ℚ)
    (h : duckInvariant s) : duckInvariant (advance_ducking s dt) := by
  intro b
  unfold advance_ducking
  rw [foldl_recalc_gain, foldl_recalc_ducking]
  by_cases hb : b ∈ (agedDucking s dt).map Prod.fst
  · rw [if_pos hb]
  · rw [if_neg hb]
    have hnone2 : alookup (agedDucking s dt) b = none :=
      (alookup_none_keys _ _).mpr hb
    have hb2 : b ∉ s.ducking.map Prod.fst := by
      rw [← agedDucking_keys s dt]
      exact hb
    have hnone1 : alookup s.ducking b = none := (alookup_none_keys _ _).mpr hb2
    have hL : alookupD ({ s with ducking := agedDucking s dt } : SFXState).duck_gain b 0 =
        duckGainOf (alookupD s.ducking b []) := h b
    rw [hL]
    show duckGainOf (alookupD s.ducking b []) = duckGainOf (alookupD (agedDucking s dt) b [])
    unfold alookupD
    rw [hnone1, hnone2]

theorem update_preserves_duck_invariant (s : SFXState) (dt : ℚ)
    (h : duckInvariant s) : duckInvariant (update s dt) := by
  have h1 : duckInvariant (advance_cooldowns s dt) := h
  have h2 := advance_ducking_preserves_invariant (advance_cooldowns s dt) dt h1
  exact h2

/-- An external call into the ducking-relevant mixer API: `duck` or
`update`. -/
inductive MixOp where
  | duckOp (bus : String) (gain_db ms : ℚ)
  | updOp (dt : ℚ)

def applyOp (s : SFXState) : MixOp → SFXState
  | .duckOp b g ms => duck s b g ms
  | .updOp dt => update s dt

def applyOps : List MixOp → SFXState → SFXState
  | [], s => s
  | op :: ops, s => applyOps ops (applyOp s op)

/-- A `duck` call with a positive duration (an `update` is unrestricted). -/
def ducksPositive : MixOp → Prop
  | .duckOp _ _ ms => 0 < ms
  | .updOp _ => True

/-- Every stored duck window is unexpired (strictly positive remaining
time). -/
def windowsPositive (s : SFXState) : Prop :=
  ∀ b, ∀ w ∈ alookupD s.ducking b [], 0 < w.remaining

theorem windowsPositive_init : windowsPositive initState := by
  intro b w hw
  simp only [initState, alookupD, alookup_cons, alookup_nil] at hw
  split_ifs at hw <;> simp at hw

theorem duck_preserves_windowsPositive (s : SFXState) (bus : String)
    (g ms : ℚ) (hms : 0 < ms) (h : windowsPositive s) :
    windowsPositive (duck s bus g ms) := by
  unfold duck
  by_cases hb : (alookup s.ducking bus.toLower).isSome
  · rw [if_pos hb]
    intro b w hw
    have hw2 : w ∈ alookupD (aset s.ducking bus.toLower
        (duckedWindows s bus.toLower g ms)) b [] := hw
    rw [alookupD_aset] at hw2
    by_cases hb0 : b = bus.toLower
    · rw [if_pos hb0] at hw2
      unfold duckedWindows at hw2
      rcases List.mem_append.mp hw2 with hmem | hmem
      · exact h bus.toLower w hmem
      · have hwv : w = ⟨g, max 0 (ms / 1000)⟩ := List.mem_singleton.mp hmem
        have hq : 0 < ms / 1000 := div_pos hms (by norm_num)
        rw [hwv]
        show 0 < max 0 (ms / 1000)
        rw [max_eq_right (le_of_lt hq)]
        exact hq
    · rw [if_neg hb0] at hw2
      exact h b w hw2
  · rw [if_neg hb]
    exact h

theorem update_preserves_windowsPositive (s : SFXState) (dt : ℚ)
    (_h : windowsPositive s) : windowsPositive (update s dt) := by
  intro b w hw
  have hw2 : w ∈ alookupD (advance_ducking (advance_cooldowns s dt) dt).ducking b [] := hw
  rw [advance_ducking_windows] at hw2
  obtain ⟨w0, _, hmap⟩ := List.mem_filterMap.mp hw2
  by_cases hc : 0 < w0.remaining - dt
  · rw [if_pos hc] at hmap
    obtain rfl : (⟨w0.gain_db, w0.remaining - dt⟩ : DuckWindow) = w :=
      Option.some.inj hmap
    exact hc
  · rw [if_neg hc] at hmap
    cases hmap

theorem applyOps_duck_invariant (ops : List MixOp) (s : SFXState)
    (h : duckInvariant s) : duckInvariant (applyOps ops s) := by
  induction ops generalizing s with
  | nil => exact h
  | cons op ops ih =>
    apply ih
    cases op with
    | duckOp b g ms => exact duck_preserves_invariant s b g ms h
    | updOp dt => exact update_preserves_duck_invariant s dt h

theorem applyOps_windowsPositive (ops : List MixOp) (s : SFXState)
    (hops : ∀ op ∈ ops, ducksPositive op) (h : windowsPositive s) :
    windowsPositive (applyOps ops s) := by
  induction ops generalizing s with
  | nil => exact h
  | cons op ops ih =>
    refine ih _ (fun o ho => hops o (List.mem_cons.mpr (Or.inr ho))) ?_
    have hop : ducksPositive op := hops op (List.mem_cons.mpr (Or.inl rfl))
    cases op with
    | duckOp b g ms => exact duck_preserves_windowsPositive s b g ms hop h
    | updOp dt => exact update_preserves_windowsPositive s dt h

/-- The C6 concrete trace: `duck(loops, -6 dB, 100 ms)`,
`duck(loops, -12 dB, 50 ms)`, `update(0.06)`, `update(0.04)`. -/
def duckTrace1 : SFXState := applyOps [.duckOp "loops" (-6) 100] initState

def duckTrace2 : SFXState :=
  applyOps [.duckOp "loops" (-6) 100, .duckOp "loops" (-12) 50] initState

def duckTrace3 : SFXState :=
  applyOps [.duckOp "loops" (-6) 100, .duckOp "loops" (-12) 50,
            .updOp (6/100)] initState

def duckTrace4 : SFXState :=
  applyOps [.duckOp "loops" (-6) 100, .duckOp "loops" (-12) 50,
            .updOp (6/100), .updOp (4/100)] initState

/-- C6: after any sequence of `duck`/`update` calls from the initial state,
every bus's effective duck gain is the minimum `gain_db` over its stored
windows and 0 dB when none remain; when all duck durations are positive
every stored window is unexpired; `update(dt)` ages every window by `dt`
and removes the expired ones; and the concrete two-duck trace yields
effective gains `-12`, then `-6` after 60 ms, then `0` after 100 ms
total. -/
theorem duck_gain_min_invariant :
    (∀ (ops : List MixOp) (b : String),
        alookupD (applyOps ops initState).duck_gain b 0 =
          duckGainOf (alookupD (applyOps ops initState).ducking b [])) ∧
    (∀ (ops : List MixOp), (∀ op ∈ ops, ducksPositive op) →
        ∀ b, ∀ w ∈ alookupD (applyOps ops initState).ducking b [],
          0 < w.remaining) ∧
    (∀ (s : SFXState) (dt : ℚ) (b : String),
        alookupD (advance_ducking s dt).ducking b [] =
          (alookupD s.ducking b []).filterMap fun w =>
            if 0 < w.remaining - dt then some ⟨w.gain_db, w.remaining - dt⟩
            else none) ∧
    alookupD duckTrace1.duck_gain "loops" 0 = -6 ∧
    alookupD duckTrace2.duck_gain "loops" 0 = -12 ∧
    alookupD duckTrace3.duck_gain "loops" 0 = -6 ∧
    alookupD duckTrace4.duck_gain "loops" 0 = 0 := by
  refine ⟨fun ops b => applyOps_duck_invariant ops initState duckInvariant_init b,
          fun ops hops => applyOps_windowsPositive ops initState hops windowsPositive_init,
          advance_ducking_windows, ?_, ?_, ?_, ?_⟩
  · with_unfolding_all decide
  · with_unfolding_all decide
  · with_unfolding_all decide
  · with_unfolding_all decide

theorem duck_gain_min_invariant_witness :
    alookupD duckTrace2.duck_gain "loops" 0 =
      duckGainOf (alookupD duckTrace2.ducking "loops" []) ∧
    (0 : ℚ) < (⟨-6, 1/10⟩ : DuckWindow).remaining := by
  constructor
  · exact duck_gain_min_invariant.1
      [.duckOp "loops" (-6) 100, .duckOp "loops" (-12) 50] "loops"
  · exact duck_gain_min_invariant.2.1
      [.duckOp "loops" (-6) 100, .duckOp "loops" (-12) 50]
      (by intro op ho
          rcases List.mem_cons.mp ho with h | h
          · rw [h]
            show (0 : ℚ) < 100
            with_unfolding_all decide
          · rw [List.mem_singleton.mp h]
            show (0 : ℚ) < 50
            with_unfolding_all decide)
      "loops" ⟨-6, 1/10⟩ (by with_unfolding_all decide)

/-! ### Rejection side effects (C8) -/

/-- The state `play` leaves behind when `_register_voice` rejects the
request: everything as before except the round-robin cursor, which
`_create_voice` has already advanced via `_next_variant_index`. -/
def cursorAdvanced (s : SFXState) (event : String) (total : Nat) : SFXState :=
  { s with variant_indices := aset s.variant_indices event ((alookupD s.variant_indices event 0 + 1) % total) }

/-- A low-priority non-loop event targeting the full capacity-2 `music`
bus; its cooldown is 0 so the request reaches the capacity check. -/
def specLower : EventSpec := ⟨"lower", "music", false, 0, 1, false, 5, 0, 0, []⟩

theorem play_eval (s : SFXState) (spec : EventSpec) (total : Nat)
    (now l r : ℚ) (h1 : spec.loop = false)
    (h2 : cooldown_ready s spec = true) (h3 : total ≠ 0) :
    play s spec total now l r =
      (match register_voice (create_voice s spec total now l r false).2
          (create_voice s spec total now l r false).1 with
       | (false, s2) => (false, s2)
       | (true, s2) => (true, record_event (arm_cooldown s2 spec) spec.name)) := by
  simp only [play, h1, h2, h3]
  simp

/-- C8 counterexample: a capacity-rejected `play` returns `false` and
leaves the bus voice sets and the cooldown table intact, but the per-event
round-robin variant cursor has already advanced (`_create_voice` calls
`_next_variant_index` before `_register_voice` runs), so the observable
catalog-side state differs from the pre-call state, refuting the claim as
stated. -/
theorem play_reject_advances_cursor_cx :
    (play stateMusicFull specLower 3 2 1 1).1 = false ∧
    (play stateMusicFull specLower 3 2 1 1).2.voices = stateMusicFull.voices ∧
    (play stateMusicFull specLower 3 2 1 1).2.cooldowns = stateMusicFull.cooldowns ∧
    (play stateMusicFull specLower 3 2 1 1).2.variant_indices ≠
      stateMusicFull.variant_indices := by
  refine ⟨?_, ?_, ?_, ?_⟩ <;> with_unfolding_all decide

/-- C8 (amended): a cooldown-blocked `play` changes nothing at all; a
`play` that reaches voice creation and is then rejected by the
capacity/priority rule returns `false` with the bus voice sets, cooldown
table, loop index and event log unchanged, but with the per-event
round-robin cursor already advanced. -/
theorem play_reject_state_change :
    (∀ (s : SFXState) (spec : EventSpec) (total : Nat) (now l r : ℚ),
        spec.loop = false → cooldown_ready s spec = false →
        play s spec total now l r = (false, s)) ∧
    (∀ (s : SFXState) (spec : EventSpec) (total : Nat) (now l r : ℚ),
        spec.loop = false → cooldown_ready s spec = true → total ≠ 0 →
        (play s spec total now l r).1 = false →
        play s spec total now l r = (false, cursorAdvanced s spec.name total)) := by
  refine ⟨play_cooldown_blocked, fun s spec total now l r h1 h2 h3 hfalse => ?_⟩
  rcases hreg : register_voice (create_voice s spec total now l r false).2
      (create_voice s spec total now l r false).1 with ⟨b, s2⟩
  cases b with
  | false =>
    have heq := register_voice_false_eq (create_voice s spec total now l r false).2
      (create_voice s spec total now l r false).1 (by rw [hreg])
    have hpair : ((false, s2) : Bool × SFXState) =
        (false, (create_voice s spec total now l r false).2) := hreg ▸ heq
    injection hpair with _ hs2
    rw [play_eval s spec total now l r h1 h2 h3, hreg]
    show ((false, s2) : Bool × SFXState) = (false, cursorAdvanced s spec.name total)
    rw [hs2]
    with_unfolding_all rfl
  | true =>
    exfalso
    rw [play_eval s spec total now l r h1 h2 h3, hreg] at hfalse
    exact absurd hfalse (by simp)

theorem play_reject_state_change_witness :
    play stateMusicFull specLower 3 2 1 1 =
      (false, cursorAdvanced stateMusicFull specLower.name 3) :=
  play_reject_state_change.2 stateMusicFull specLower 3 2 1 1 rfl
    (by with_unfolding_all decide) (by decide) (by with_unfolding_all decide)

/-! ### Virtual-time culling (C9) and loop-voice preservation (C10) -/

/-- A freshly admitted non-loop voice on the `sfx` bus (default
`virtual_time` budget 0.4 s). -/
def voiceFresh : Voice := ⟨"burst", "sfx", 0, 0, false, 1, 1, some (2/5)⟩

def stateOneVoice : SFXState :=
  { initState with voices :=
      [("ui", []), ("sfx", [voiceFresh]), ("loops", []), ("music", [])] }

/-- `n` frames of `update(1000.0)`: an absurdly large `dt` to witness that
culling ignores `dt` entirely. -/
def iterUpdate : Nat → SFXState → SFXState
  | 0, s => s
  | n + 1, s => iterUpdate n (update s 1000)

theorem update_voices (s : SFXState) (dt : ℚ) :
    (update s dt).voices = s.voices.map fun p => (p.1, p.2.filterMap cullStep) := by
  show (cull_finished_voices (advance_ducking (advance_cooldowns s dt) dt)).voices = _
  unfold cull_finished_voices
  show (advance_ducking (advance_cooldowns s dt) dt).voices.map _ = _
  unfold advance_ducking
  rw [foldl_recalc_voices]
  rfl

/-- C9 counterexample: with audio disabled, the procedural-fallback buffer
for any event lasts 160 ms = 4/25 s (`proc_fallback.generate` default).
After a single `update(10.0)` the elapsed update time (10 s) far exceeds
that rendered duration, so the claim demands the voice be gone — but the
voice is still on its bus, merely with its fixed 0.4 s virtual-time budget
decremented by the constant 0.016 (`_cull_finished_voices` never consults
`dt` or the buffer duration). -/
theorem cull_ignores_elapsed_dt_cx :
    (4/25 : ℚ) ≤ 10 ∧
    { voiceFresh with virtual_time := some (2/5 - 2/125) } ∈
      alookupD (update stateOneVoice 10).voices "sfx" [] := by
  constructor
  · with_unfolding_all decide
  · with_unfolding_all decide

/-- C9 (amended): with audio disabled, `update` removes a non-loop voice
exactly when its fixed virtual-time budget (0.4 s at creation, decremented
by the constant 0.016 s per `update` call, independent of `dt` and of the
rendered buffer duration) is exhausted; in exact arithmetic the voice
survives 24 `update` calls and disappears on the 25th, whatever the `dt`
arguments were. -/
theorem cull_virtual_time_budget :
    (∀ (s : SFXState) (dt : ℚ),
        (update s dt).voices = s.voices.map fun p => (p.1, p.2.filterMap cullStep)) ∧
    (∀ (v : Voice) (t : ℚ), v.loop = false → v.virtual_time = some t →
        cullStep v = if 0 < t - 2/125 then
          some { v with virtual_time := some (t - 2/125) } else none) ∧
    (alookupD (iterUpdate 24 stateOneVoice).voices "sfx" []).length = 1 ∧
    (alookupD (iterUpdate 25 stateOneVoice).voices "sfx" []).length = 0 := by
  refine ⟨update_voices, fun v t hl hv => ?_, ?_, ?_⟩
  · simp [cullStep, hl, hv]
  · with_unfolding_all decide
  · with_unfolding_all decide

theorem cull_virtual_time_budget_witness :
    cullStep voiceFresh = (if 0 < (2/5 : ℚ) - 2/125 then
      some { voiceFresh with virtual_time := some ((2/5 : ℚ) - 2/125) } else none) :=
  cull_virtual_time_budget.2.1 voiceFresh (2/5) rfl rfl

/-- C10: `update` never removes a loop-flagged voice: for every state,
every `dt` and every bus, each loop voice present before `update(dt)` is
still present afterwards (`_cull_finished_voices` passes loop voices
through untouched, and nothing else in `update` drops voices). -/
theorem update_preserves_loop_voices :
    ∀ (s : SFXState) (dt : ℚ) (b : String) (v : Voice),
      v.loop = true → v ∈ alookupD s.voices b [] →
      v ∈ alookupD (update s dt).voices b [] := by
  intro s dt b v hl hv
  rw [show alookupD (update s dt).voices b [] =
      alookupD (s.voices.map fun p => (p.1, p.2.filterMap cullStep)) b []
      from by rw [update_voices]]
  unfold alookupD at hv ⊢
  rw [alookup_map_val]
  cases hlk : alookup s.voices b with
  | none =>
    rw [hlk] at hv
    simp at hv
  | some ws =>
    rw [hlk] at hv
    show v ∈ ws.filterMap cullStep
    refine List.mem_filterMap.mpr ⟨v, hv, ?_⟩
    simp [cullStep, hl]

/-- A loop voice on the `loops` bus. -/
def voiceLoopW : Voice := ⟨"engine", "loops", 0, 0, true, 1, 1, none⟩

def stateLoopW : SFXState :=
  { initState with voices :=
      [("ui", []), ("sfx", []), ("loops", [voiceLoopW]), ("music", [])] }

theorem update_preserves_loop_voices_witness :
    voiceLoopW ∈ alookupD (update stateLoopW 1000).voices "loops" [] :=
  update_preserves_loop_voices stateLoopW 1000 "loops" voiceLoopW rfl
    (by with_unfolding_all decide)

end DotSFX
